import Mathlib

/-!
Verification of the import-reconciliation pipeline of the parts-quotation
system (`src/ImprovedPartsQuotationSystem.js`, with the reduced variant in
`src/App.js`).  Strings are modelled as `String`/`List Char`, JS numbers as
`ℚ` (quantities as `ℤ`), and JS exceptions as `Except`.
-/

namespace PQS

/-- The JS `\s` / `String.prototype.trim` whitespace set. -/
def isJsWs (c : Char) : Bool :=
  decide (c.toNat = 9 ∨ c.toNat = 10 ∨ c.toNat = 11 ∨ c.toNat = 12 ∨ c.toNat = 13 ∨
    c.toNat = 32 ∨ c.toNat = 160 ∨ c.toNat = 0x1680 ∨
    (0x2000 ≤ c.toNat ∧ c.toNat ≤ 0x200A) ∨ c.toNat = 0x2028 ∨ c.toNat = 0x2029 ∨
    c.toNat = 0x202F ∨ c.toNat = 0x205F ∨ c.toNat = 0x3000 ∨ c.toNat = 0xFEFF)

/-- The separator family of the normalized-fuzzy tier: the JS character class
`[-_．.・]` of `enhancedFuzzyMatch` — hyphen-minus `-` (45), underscore `_`
(95), fullwidth full stop `．` (U+FF0E), full stop `.` (46), katakana middle
dot `・` (U+30FB).  (The fullwidth hyphen U+FF0D is NOT in the class.) -/
def isSepChar (c : Char) : Bool :=
  decide (c.toNat = 45 ∨ c.toNat = 95 ∨ c.toNat = 0xFF0E ∨ c.toNat = 46 ∨ c.toNat = 0x30FB)

/-- `String.prototype.toLowerCase`, restricted to the ASCII range (the only
case-carrying characters this codebase manipulates). -/
def jsToLowerChar (c : Char) : Char :=
  if h : 65 ≤ c.toNat ∧ c.toNat ≤ 90 then
    Char.ofNatAux (c.toNat + 32)
      (Or.inl (Nat.lt_of_le_of_lt (Nat.add_le_add_right h.2 32) (by norm_num)))
  else c

/-- `String.prototype.trim` on a character list. -/
def jsTrim (l : List Char) : List Char :=
  ((l.dropWhile isJsWs).reverse.dropWhile isJsWs).reverse

/-- Replacement performed by `.replace(/[-_．.・]/g, '-')`. -/
def repSepChar (c : Char) : Char :=
  if isSepChar c then '-' else c

/-- Exact-tier comparison key: `String(s).trim()`. -/
def exactKey (s : String) : String :=
  String.mk (jsTrim s.data)

/-- Case-insensitive-tier key: `String(s).toLowerCase().trim()`. -/
def caseInsensitiveKey (s : String) : String :=
  String.mk (jsTrim (s.data.map jsToLowerChar))

/-- No-space-tier key: `String(s).replace(/\s+/g, '')`. -/
def noSpaceKey (s : String) : String :=
  String.mk (s.data.filter (fun c => !isJsWs c))

/-- Normalized-fuzzy key:
`String(s).replace(/[-_．.・]/g, '-').replace(/\s+/g, '').toLowerCase()`. -/
def fuzzyKey (s : String) : String :=
  String.mk (((s.data.map repSepChar).filter (fun c => !isJsWs c)).map jsToLowerChar)

/-- Canonical catalog record (`partsData` rows).  Field names follow the
spec's data model; comments give the Chinese source keys. -/
structure CatalogPart where
  id : String                -- 标识码
  drawingNumber : String     -- 图号
  name : String              -- 名称
  guidePriceNoTax : ℚ        -- 指导价（不含税）
  factoryPriceNoTax : ℚ      -- 出厂价（不含税）
  servicePriceNoTax : ℚ      -- 服务价（不含税）
  guidePriceTaxed : ℚ        -- 指导价（含税）
  factoryPriceTaxed : ℚ      -- 出厂价（含税）
  servicePriceTaxed : ℚ      -- 服务价（含税）
  note : String              -- 备注
  date : Option String       -- 日期 (absent on synthesized new parts)
  deriving DecidableEq, Repr

/-- The `matchType` tags returned by `enhancedFuzzyMatch` (`'exact'`,
`'caseInsensitive'`, `'noSpace'`, `'fuzzy'`). -/
inductive MatchType where
  | exact
  | caseInsensitive
  | noSpace
  | fuzzy
  deriving DecidableEq, Repr

/-- Result of a successful match: `{ ...part, matchType }`. -/
structure MatchResult where
  part : CatalogPart
  matchType : MatchType
  deriving DecidableEq, Repr

/-- `enhancedFuzzyMatch(importedId, partsData)` of
`ImprovedPartsQuotationSystem.js`: the four comparison tiers tried in order,
each one a `find` over the catalog in iteration order. -/
def enhancedFuzzyMatch (importedId : String) (partsData : List CatalogPart) :
    Option MatchResult :=
  match partsData.find? (fun part => exactKey part.drawingNumber == exactKey importedId) with
  | some part => some ⟨part, MatchType.exact⟩
  | none =>
  match partsData.find? (fun part =>
      caseInsensitiveKey part.drawingNumber == caseInsensitiveKey importedId) with
  | some part => some ⟨part, MatchType.caseInsensitive⟩
  | none =>
  match partsData.find? (fun part => noSpaceKey part.drawingNumber == noSpaceKey importedId) with
  | some part => some ⟨part, MatchType.noSpace⟩
  | none =>
  match partsData.find? (fun part => fuzzyKey part.drawingNumber == fuzzyKey importedId) with
  | some part => some ⟨part, MatchType.fuzzy⟩
  | none => none

/-- The reduced matcher of the `App.js` variant: a single case-insensitive
comparison (no trim, no tiers, no `matchType` tag). -/
def appEnhancedFuzzyMatch (importedId : String) (partsData : List CatalogPart) :
    Option CatalogPart :=
  partsData.find? (fun part =>
    String.mk (part.drawingNumber.data.map jsToLowerChar) ==
    String.mk (importedId.data.map jsToLowerChar))

/-- A catalog part whose non-identifier fields are defaulted; used to build
concrete test catalogs. -/
def mkPart (i dn : String) : CatalogPart :=
  { id := i, drawingNumber := dn, name := "", guidePriceNoTax := 0,
    factoryPriceNoTax := 0, servicePriceNoTax := 0, guidePriceTaxed := 0,
    factoryPriceTaxed := 0, servicePriceTaxed := 0, note := "", date := none }

/-- Concrete catalog entry with upper-case suffix (claim C1's example). -/
def c1PartUpper : CatalogPart := mkPart "ZB0101" "135-01-003A"

/-- Concrete catalog entry with lower-case suffix (claim C1's example). -/
def c1PartLower : CatalogPart := mkPart "ZB0102" "135-01-003a"

/-- Concrete catalog entry for claim C2's separator-family example. -/
def c2Part : CatalogPart := mkPart "ZB0201" "135-01-003A"

-- ======================================================================
-- JS value coercions used by the tabular extractor
-- ======================================================================

/-- A raw JS cell value.  Numeric cell values are modelled as integers (the
extractor only reads them through `parseInt`, which truncates). -/
inductive JSVal where
  | str (s : String)
  | num (n : Int)
  | undef
  deriving DecidableEq, Repr

/-- JS truthiness of the modelled values. -/
def JSVal.truthy : JSVal → Bool
  | .str s => !(s == "")
  | .num n => !(n == 0)
  | .undef => false

/-- `String(v)`. -/
def JSVal.toStr : JSVal → String
  | .str s => s
  | .num n => toString n
  | .undef => "undefined"

/-- The JS `a || b` operator. -/
def jsOrVal (a b : JSVal) : JSVal := if a.truthy then a else b

def isDigitChar (c : Char) : Bool := decide (48 ≤ c.toNat ∧ c.toNat ≤ 57)

def isAsciiAlpha (c : Char) : Bool :=
  decide ((65 ≤ c.toNat ∧ c.toNat ≤ 90) ∨ (97 ≤ c.toNat ∧ c.toNat ≤ 122))

def isUpperChar (c : Char) : Bool := decide (65 ≤ c.toNat ∧ c.toNat ≤ 90)

def hexDigitVal (c : Char) : Option Nat :=
  if 48 ≤ c.toNat ∧ c.toNat ≤ 57 then some (c.toNat - 48)
  else if 65 ≤ c.toNat ∧ c.toNat ≤ 70 then some (c.toNat - 55)
  else if 97 ≤ c.toNat ∧ c.toNat ≤ 102 then some (c.toNat - 87)
  else none

def isHexDigit (c : Char) : Bool := (hexDigitVal c).isSome

def digitsVal (l : List Char) : Nat := l.foldl (fun a c => a * 10 + (c.toNat - 48)) 0

def hexVal (l : List Char) : Nat := l.foldl (fun a c => a * 16 + (hexDigitVal c).getD 0) 0

/-- JS `parseInt(s)` with auto-detected radix; `none` models `NaN`. -/
def jsParseInt (s : String) : Option Int :=
  let l := s.data.dropWhile isJsWs
  let sign : Int := match l with
    | '-' :: _ => -1
    | _ => 1
  let l1 : List Char := match l with
    | '-' :: t => t
    | '+' :: t => t
    | _ => l
  match l1 with
  | '0' :: x :: t =>
    if x = 'x' ∨ x = 'X' then
      let ds := t.takeWhile isHexDigit
      if ds.isEmpty then none else some (sign * (hexVal ds : Int))
    else
      let ds := l1.takeWhile isDigitChar
      if ds.isEmpty then none else some (sign * (digitsVal ds : Int))
  | _ =>
    let ds := l1.takeWhile isDigitChar
    if ds.isEmpty then none else some (sign * (digitsVal ds : Int))

/-- Tail of a JS decimal numeric literal: nothing, or an exponent part
consuming the whole rest. -/
def decExpTail (l : List Char) : Bool :=
  match l with
  | [] => true
  | c :: t =>
    if c = 'e' ∨ c = 'E' then
      let t2 : List Char := match t with
        | s :: t1 => if s = '+' ∨ s = '-' then t1 else t
        | [] => t
      !(t2.takeWhile isDigitChar).isEmpty && (t2.dropWhile isDigitChar).isEmpty
    else false

/-- Unsigned JS decimal literal body (`digits[.digits][exp]` or
`.digits[exp]`). -/
def decBody (l : List Char) : Bool :=
  let d1 := l.takeWhile isDigitChar
  let r1 := l.dropWhile isDigitChar
  match r1 with
  | '.' :: t =>
    let d2 := t.takeWhile isDigitChar
    let r2 := t.dropWhile isDigitChar
    (!d1.isEmpty || !d2.isEmpty) && decExpTail r2
  | _ => !d1.isEmpty && decExpTail r1

/-- Whether `Number(s)` is not `NaN` for a string `s` (the JS
`StringNumericLiteral` grammar; non-finite values are still "numeric"). -/
def jsStrIsNumeric (s : String) : Bool :=
  let l := jsTrim s.data
  match l with
  | [] => true
  | c :: t =>
    if c = '+' ∨ c = '-' then (t == "Infinity".data) || decBody t
    else
      (l == "Infinity".data) || decBody l ||
      (match l with
       | '0' :: x :: t1 =>
         (if x = 'x' ∨ x = 'X' then !t1.isEmpty && t1.all isHexDigit
          else if x = 'o' ∨ x = 'O' then
            !t1.isEmpty && t1.all (fun d => decide (48 ≤ d.toNat ∧ d.toNat ≤ 55))
          else if x = 'b' ∨ x = 'B' then
            !t1.isEmpty && t1.all (fun d => d = '0' ∨ d = '1')
          else false)
       | _ => false)

/-- JS `isNaN(v)` on cell values. -/
def jsIsNaNVal : JSVal → Bool
  | .num _ => false
  | .str s => !jsStrIsNumeric s
  | .undef => true

/-- JS `parseInt(v)`: the argument is coerced to a string first. -/
def jsParseIntVal (v : JSVal) : Option Int := jsParseInt v.toStr

-- ======================================================================
-- Tabular extraction (extractGenericPartsList)
-- ======================================================================

/-- A spreadsheet cell as read through the tabular reader: raw value `v` and
formatted text `w`. -/
structure Cell where
  v : JSVal
  w : Option String
  deriving DecidableEq, Repr

/-- One sheet: a name, the column count of its decoded range, and the rows of
its decoded range (`none` = absent cell). -/
structure Sheet where
  name : String
  cols : Nat
  grid : List (List (Option Cell))
  deriving DecidableEq, Repr

def cellAt (s : Sheet) (r c : Nat) : Option Cell :=
  ((s.grid.get? r).bind (fun row => row.get? c)).join

/-- Excel column letters (`XLSX.utils.encode_cell` column part). -/
def encodeColAux : Nat → Nat → List Char
  | 0, _ => []
  | fuel + 1, n =>
    let ch := Char.ofNat (65 + n % 26)
    if n < 26 then [ch] else encodeColAux fuel (n / 26 - 1) ++ [ch]

/-- `XLSX.utils.encode_cell({r, c})`, e.g. `A1`, `B5`. -/
def encodeCell (r c : Nat) : String :=
  String.mk (encodeColAux (c + 1) c) ++ toString (r + 1)

/-- `ImportCandidate`: a raw extracted row before matching.  Field comments
give the Chinese source keys. -/
structure Candidate where
  drawingNumber : String     -- 图号
  name : Option String       -- 名称
  quantity : Option Int      -- 数量
  unitPrice : Option ℚ       -- 单价
  note : Option String       -- 备注
  deriving DecidableEq, Repr

/-- Cell acceptance shape `/^[A-Za-z0-9\-\.\/]+$/`. -/
def matchesGenericClass (l : List Char) : Bool :=
  !l.isEmpty && l.all (fun c => isAsciiAlpha c || isDigitChar c || c = '-' || c = '.' || c = '/')

/-- Cell acceptance shape `/^[A-Za-z]+\d+$/`. -/
def matchesAlphaDigits (l : List Char) : Bool :=
  !(l.takeWhile isAsciiAlpha).isEmpty &&
  !(l.dropWhile isAsciiAlpha).isEmpty &&
  (l.dropWhile isAsciiAlpha).all isDigitChar

/-- Cell acceptance shape `/^\d+[A-Za-z]+\d*$/`. -/
def matchesDigitsAlphaDigits (l : List Char) : Bool :=
  let r := l.dropWhile isDigitChar
  !(l.takeWhile isDigitChar).isEmpty &&
  !(r.takeWhile isAsciiAlpha).isEmpty &&
  (r.dropWhile isAsciiAlpha).all isDigitChar

/-- Cell acceptance shape `/^[A-Za-z]\d+[A-Za-z]\d+$/`. -/
def matchesLetterDigitLetterDigit (l : List Char) : Bool :=
  match l with
  | c1 :: r =>
    isAsciiAlpha c1 &&
    !(r.takeWhile isDigitChar).isEmpty &&
    (match r.dropWhile isDigitChar with
     | c2 :: r2 => isAsciiAlpha c2 && !r2.isEmpty && r2.all isDigitChar
     | [] => false)
  | [] => false

def isDashDot (c : Char) : Bool := c = '-' || c = '.'

/-- Cell acceptance shape `/^\d+[\-\.]\d+[\-\.]\d+[A-Za-z]?$/`
(e.g. `135-01-003A`). -/
def matchesStandardCode (l : List Char) : Bool :=
  !(l.takeWhile isDigitChar).isEmpty &&
  (match l.dropWhile isDigitChar with
   | s1 :: r2 =>
     isDashDot s1 &&
     !(r2.takeWhile isDigitChar).isEmpty &&
     (match r2.dropWhile isDigitChar with
      | s2 :: r4 =>
        isDashDot s2 &&
        !(r4.takeWhile isDigitChar).isEmpty &&
        (match r4.dropWhile isDigitChar with
         | [] => true
         | [a] => isAsciiAlpha a
         | _ => false)
      | [] => false)
   | [] => false)

def isPureDigits (l : List Char) : Bool := !l.isEmpty && l.all isDigitChar

/-- The cell-candidate test of `extractGenericPartsList`: nonempty after
trim, length ≥ 3, not purely numeric, and one of the five shape patterns. -/
def acceptCellValue (value : String) : Bool :=
  !(value == "") && decide (3 ≤ value.data.length) && !isPureDigits value.data &&
  (matchesGenericClass value.data || matchesAlphaDigits value.data ||
   matchesDigitsAlphaDigits value.data || matchesLetterDigitLetterDigit value.data ||
   matchesStandardCode value.data)

/-- Quantity for an accepted tabular cell: the adjacent cell to the right via
`parseInt(qtyCell.v) || 1` when `!isNaN(qtyCell.v)`, else 1. -/
def tabularQty (s : Sheet) (r c : Nat) : Int :=
  if c + 1 < s.cols then
    match cellAt s r (c + 1) with
    | some qtyCell =>
      if jsIsNaNVal qtyCell.v then 1
      else
        match jsParseIntVal qtyCell.v with
        | some n => if n = 0 then 1 else n
        | none => 1
    | none => 1
  else 1

def wVal : Option String → JSVal
  | some s => JSVal.str s
  | none => JSVal.undef

/-- `String(cell.w || cell.v || '').trim()`. -/
def cellValue (cell : Cell) : String :=
  String.mk (jsTrim (jsOrVal (jsOrVal (wVal cell.w) cell.v) (JSVal.str "")).toStr.data)

/-- Scan of one cell of `extractGenericPartsList`: presence test
`cell && (cell.v !== undefined || cell.w)`, stringified-trimmed value
`String(cell.w || cell.v || '').trim()`, the acceptance test, and the
candidate record with its provenance note. -/
def scanCell (s : Sheet) (r c : Nat) : Option Candidate :=
  match cellAt s r c with
  | none => none
  | some cell =>
    if !(cell.v == JSVal.undef) || (wVal cell.w).truthy then
      if acceptCellValue (cellValue cell) then
        some { drawingNumber := cellValue cell, name := none,
               quantity := some (tabularQty s r c), unitPrice := some 0,
               note := some ("工作表: " ++ s.name ++ ", 单元格: " ++ encodeCell r c) }
      else none
    else none

def concatMap {α β : Type} (f : α → List β) : List α → List β
  | [] => []
  | x :: xs => f x ++ concatMap f xs

/-- The full pre-dedup scan: all sheets, rows outer, columns inner. -/
def rawTabularScan (workbook : List Sheet) : List Candidate :=
  concatMap (fun s =>
    concatMap (fun r => (List.range s.cols).filterMap (fun c => scanCell s r c))
      (List.range s.grid.length))
    workbook

/-- `removeDuplicates` with its `seen` set: keep an item iff its 图号 was not
seen before. -/
def removeDuplicatesAux (seen : List String) : List Candidate → List Candidate
  | [] => []
  | x :: xs =>
    if x.drawingNumber ∈ seen then removeDuplicatesAux seen xs
    else x :: removeDuplicatesAux (x.drawingNumber :: seen) xs

def removeDuplicates (data : List Candidate) : List Candidate :=
  removeDuplicatesAux [] data

/-- `extractGenericPartsList(workbook)`. -/
def extractGenericPartsList (workbook : List Sheet) : List Candidate :=
  removeDuplicates (rawTabularScan workbook)

/-- Claim C4's example sheet: `NJ313` in both A1 and B5. -/
def c4Sheet : Sheet :=
  { name := "Sheet1", cols := 3,
    grid :=
      [[some { v := JSVal.str "NJ313", w := none }, none, none],
       [], [], [],
       [none, some { v := JSVal.str "NJ313", w := none }, none]] }

def c4Workbook : List Sheet := [c4Sheet]

/-- The first (A1) candidate of claim C4's example. -/
def c4FirstCand : Candidate :=
  { drawingNumber := "NJ313", name := none, quantity := some 1, unitPrice := some 0,
    note := some "工作表: Sheet1, 单元格: A1" }

/-- Claim C9's counterexample sheet: identifier `NJ313` with adjacent
quantity cell `-3`. -/
def c9Sheet : Sheet :=
  { name := "Sheet1", cols := 2,
    grid := [[some { v := JSVal.str "NJ313", w := none },
              some { v := JSVal.str "-3", w := none }]] }

def c9Workbook : List Sheet := [c9Sheet]

/-- The candidate produced by `c9Workbook`. -/
def c9Cand : Candidate :=
  { drawingNumber := "NJ313", name := none, quantity := some (-3), unitPrice := some 0,
    note := some "工作表: Sheet1, 单元格: A1" }

-- ======================================================================
-- Text extraction (extractPartsFromPdfText)
-- ======================================================================

/-- JS regex `\w`: `[A-Za-z0-9_]`. -/
def isWordChar (c : Char) : Bool :=
  isAsciiAlpha c || isDigitChar c || c = '_'

def isUpperNum (c : Char) : Bool := isUpperChar c || isDigitChar c

/-- First alternative of the line filter `/^\s*\d+\.|\-|\*\s+/`:
`^\s*\d+\.`. -/
def startsNumDot (l : List Char) : Bool :=
  let r := l.dropWhile isJsWs
  !(r.takeWhile isDigitChar).isEmpty &&
  (match r.dropWhile isDigitChar with
   | '.' :: _ => true
   | _ => false)

/-- Third alternative of the line filter: `\*\s+` anywhere. -/
def containsStarWs : List Char → Bool
  | [] => false
  | [_] => false
  | c :: d :: t => (c = '*' && isJsWs d) || containsStarWs (d :: t)

/-- Whether the list contains `need` consecutive characters of class `cls`
(`/[cls]{need,}/.test`). -/
def hasClassRun (cls : Char → Bool) (need : Nat) : List Char → Bool
  | [] => decide (need = 0)
  | l@(_ :: t) => decide (need ≤ (l.takeWhile cls).length) || hasClassRun cls need t

/-- The line filter of `extractPartsFromPdfText`:
`/^\s*\d+\.|\-|\*\s+/.test(line) || /[A-Z0-9]{3,}/.test(line)` (note the
unparenthesized alternation: any `-` anywhere passes). -/
def lineItemTest (l : List Char) : Bool :=
  (startsNumDot l || l.contains '-' || containsStarWs l) || hasClassRun isUpperNum 3 l

/-- A `\b` boundary when the preceding char is a word char: the next char
must not be a word char (or the string ends). -/
def wordBreakAfter : List Char → Bool
  | [] => true
  | c :: _ => !isWordChar c

/-- Shared tail `[A-Za-z]?\b` after a core ending in a digit, with the JS
backtracking behaviour: take the optional letter if the boundary then holds,
else drop it and require a boundary after the digit. -/
def tailOptLetter (core : List Char) (r : List Char) : Option (List Char) :=
  match r with
  | [] => some core
  | a :: r2 =>
    if isAsciiAlpha a then
      if wordBreakAfter r2 then some (core ++ [a]) else none
    else if isWordChar a then none
    else some core

/-- `\b(\d+[\-\.]\d+[\-\.]\d+[A-Za-z]?)\b` tried at one position. -/
def tryStandard (l : List Char) : Option (List Char) :=
  let d1 := l.takeWhile isDigitChar
  if d1.isEmpty then none else
  match l.dropWhile isDigitChar with
  | s1 :: r2 =>
    if isDashDot s1 then
      let d2 := r2.takeWhile isDigitChar
      if d2.isEmpty then none else
      match r2.dropWhile isDigitChar with
      | s2 :: r4 =>
        if isDashDot s2 then
          let d3 := r4.takeWhile isDigitChar
          if d3.isEmpty then none
          else tailOptLetter (d1 ++ [s1] ++ d2 ++ [s2] ++ d3) (r4.dropWhile isDigitChar)
        else none
      | [] => none
    else none
  | [] => none

def isScrewClass (c : Char) : Bool :=
  isAsciiAlpha c || isDigitChar c || c = '-' || c = '.'

/-- Largest prefix length `k ≥ minLen` of the (reversed) class run such that
a `\b` boundary holds after `k` characters — the JS greedy-then-backtrack
behaviour of a trailing `[...]+\b`. -/
def largestBreak (minLen : Nat) : List Char → Option Char → Option Nat
  | [], _ => none
  | x :: xs, next =>
    let nw := match next with
      | some c => isWordChar c
      | none => false
    if (isWordChar x != nw) && decide (minLen ≤ xs.length + 1) then some (xs.length + 1)
    else largestBreak minLen xs (some x)

/-- `\b([A-Z]\d+X\d+[A-Za-z0-9\-\.]+)\b` tried at one position.  Since the
trailing class contains digits, the preceding `\d+` only needs to contribute
one digit: the run after `X` must start with a digit and retain a boundary
after at least two of its characters. -/
def tryScrew (l : List Char) : Option (List Char) :=
  match l with
  | c0 :: r0 =>
    if isUpperChar c0 then
      let d1 := r0.takeWhile isDigitChar
      if d1.isEmpty then none else
      match r0.dropWhile isDigitChar with
      | 'X' :: r2 =>
        let run := r2.takeWhile isScrewClass
        let rest := r2.dropWhile isScrewClass
        (match run with
         | d :: _ =>
           if isDigitChar d then
             match largestBreak 2 run.reverse rest.head? with
             | some k => some (c0 :: (d1 ++ 'X' :: run.take k))
             | none => none
           else none
         | [] => none)
      | _ => none
    else none
  | [] => none

/-- `[A-Z]{1,3}\d{2,5}\b` at one position (first bearing alternative). -/
def tryBearing1 (l : List Char) : Option (List Char) :=
  let u := l.takeWhile isUpperChar
  let r := l.dropWhile isUpperChar
  if u.isEmpty || decide (3 < u.length) then none else
  let d := r.takeWhile isDigitChar
  let r2 := r.dropWhile isDigitChar
  if d.isEmpty || decide (d.length < 2) || decide (5 < d.length) then none else
  if wordBreakAfter r2 then some (u ++ d) else none

/-- `\d{3,5}[A-Z]{1,2}\d{0,2}\b` at one position (second bearing
alternative). -/
def tryBearing2 (l : List Char) : Option (List Char) :=
  let d1 := l.takeWhile isDigitChar
  let r1 := l.dropWhile isDigitChar
  if d1.isEmpty || decide (d1.length < 3) || decide (5 < d1.length) then none else
  let u := r1.takeWhile isUpperChar
  let r2 := r1.dropWhile isUpperChar
  if u.isEmpty || decide (2 < u.length) then none else
  let d2 := r2.takeWhile isDigitChar
  let r3 := r2.dropWhile isDigitChar
  if decide (2 < d2.length) then none else
  if wordBreakAfter r3 then some (d1 ++ u ++ d2) else none

/-- `\b([A-Z]{1,3}\d{2,5}|\d{3,5}[A-Z]{1,2}\d{0,2})\b` at one position. -/
def tryBearing (l : List Char) : Option (List Char) :=
  match tryBearing1 l with
  | some m => some m
  | none => tryBearing2 l

/-- `\b(\d+[A-Za-z][\-\.]\d+[A-Za-z][\-\.]\d+[A-Za-z]?)\b` at one position. -/
def tryComplex (l : List Char) : Option (List Char) :=
  let d1 := l.takeWhile isDigitChar
  if d1.isEmpty then none else
  match l.dropWhile isDigitChar with
  | a1 :: s1 :: r2 =>
    if isAsciiAlpha a1 && isDashDot s1 then
      let d2 := r2.takeWhile isDigitChar
      if d2.isEmpty then none else
      match r2.dropWhile isDigitChar with
      | a2 :: s2 :: r4 =>
        if isAsciiAlpha a2 && isDashDot s2 then
          let d3 := r4.takeWhile isDigitChar
          if d3.isEmpty then none
          else tailOptLetter (d1 ++ a1 :: s1 :: d2 ++ a2 :: s2 :: d3)
            (r4.dropWhile isDigitChar)
        else none
      | _ => none
    else none
  | _ => none

def isBulletDot (c : Char) : Bool := c = '•' || c = '.'

/-- `\b([A-Z]{1,3}[\-\.][A-Z]{1,3}\d+[•\.]\d+[•\.]\d+[A-Za-z]?)\b` at one
position. -/
def trySpecial (l : List Char) : Option (List Char) :=
  let u1 := l.takeWhile isUpperChar
  let r1 := l.dropWhile isUpperChar
  if u1.isEmpty || decide (3 < u1.length) then none else
  match r1 with
  | s1 :: r2 =>
    if isDashDot s1 then
      let u2 := r2.takeWhile isUpperChar
      let r3 := r2.dropWhile isUpperChar
      if u2.isEmpty || decide (3 < u2.length) then none else
      let d1 := r3.takeWhile isDigitChar
      if d1.isEmpty then none else
      match r3.dropWhile isDigitChar with
      | b1 :: r5 =>
        if isBulletDot b1 then
          let d2 := r5.takeWhile isDigitChar
          if d2.isEmpty then none else
          match r5.dropWhile isDigitChar with
          | b2 :: r7 =>
            if isBulletDot b2 then
              let d3 := r7.takeWhile isDigitChar
              if d3.isEmpty then none
              else tailOptLetter (u1 ++ s1 :: u2 ++ d1 ++ b1 :: d2 ++ b2 :: d3)
                (r7.dropWhile isDigitChar)
            else none
          | [] => none
        else none
      | [] => none
    else none
  | [] => none

/-- Leftmost-first regex search: try `tryPat` at each position whose left
context admits a `\b` before a word character (all five patterns start with
a word character). -/
def scanPositions (tryPat : List Char → Option (List Char)) :
    Option Char → List Char → Option (List Char)
  | _, [] => none
  | prev, l@(c :: rest) =>
    let ok : Bool := match prev with
      | none => true
      | some p => !isWordChar p
    match (if ok then tryPat l else none) with
    | some m => some m
    | none => scanPositions tryPat (some c) rest

def scanMatch (tryPat : List Char → Option (List Char)) (l : List Char) :
    Option (List Char) :=
  scanPositions tryPat none l

/-- `\b([A-Z0-9]{5,})\b` at one position (fallback pattern). -/
def tryFallbackRun (l : List Char) : Option (List Char) :=
  let run := l.takeWhile isUpperNum
  let rest := l.dropWhile isUpperNum
  if decide (run.length < 5) then none
  else if wordBreakAfter rest then some run else none

/-- Date shape `/^\d{4}-\d{2}-\d{2}$/`. -/
def isDateShape (l : List Char) : Bool :=
  match l with
  | [a, b, c, d, e, f, g, h, i, j] =>
    isDigitChar a && isDigitChar b && isDigitChar c && isDigitChar d &&
    e = '-' && isDigitChar f && isDigitChar g && h = '-' && isDigitChar i && isDigitChar j
  | _ => false

/-- Long pure-digit run `/^\d{5,}$/`. -/
def isLongDigitRun (l : List Char) : Bool :=
  decide (5 ≤ l.length) && l.all isDigitChar

/-- Phone shape `/^1[3-9]\d{9}$/`. -/
def isPhoneShape (l : List Char) : Bool :=
  match l with
  | '1' :: p :: rest =>
    decide (51 ≤ p.toNat ∧ p.toNat ≤ 57) && decide (rest.length = 9) && rest.all isDigitChar
  | _ => false

/-- The plausibility filter applied before pushing a text candidate. -/
def isBadPart (l : List Char) : Bool :=
  isDateShape l || isLongDigitRun l || isPhoneShape l

/-- `line.indexOf(sub)` (first index, `none` if absent). -/
def indexOfSub (sub : List Char) : List Char → Option Nat
  | [] => if sub.isEmpty then some 0 else none
  | l@(_ :: t) =>
    if sub.isPrefixOf l then some 0
    else match indexOfSub sub t with
      | some i => some (i + 1)
      | none => none

/-- Tail `\s+(?:数量|[0-9]|$)` of the name regex, anchored at the argument. -/
def nameTailCond (r : List Char) : Bool :=
  let w := r.takeWhile isJsWs
  let r2 := r.dropWhile isJsWs
  !w.isEmpty &&
  (r2.isEmpty ||
   (match r2 with
    | c :: _ => isDigitChar c
    | [] => false) ||
   ['数', '量'].isPrefixOf r2)

def isShuLiang (c : Char) : Bool := c = '数' || c = '量'

/-- The lazy `[^数量]*?` loop of the name regex: at each step first test the
tail (shortest match wins), else consume one more non-`数量` character. -/
def nameLazyScan (acc : List Char) : List Char → Option (List Char)
  | [] => none
  | r@(c :: t) =>
    if nameTailCond r then some acc.reverse
    else if isShuLiang c then none
    else nameLazyScan (c :: acc) t

/-- The name regex `/^\s+([^\d\s][^数量]*?)\s+(?:数量|[0-9]|$)/` applied to
the text after the part number; returns group 1. -/
def extractNameAfter (rest : List Char) : Option (List Char) :=
  let w0 := rest.takeWhile isJsWs
  let r0 := rest.dropWhile isJsWs
  if w0.isEmpty then none else
  match r0 with
  | c :: t =>
    if isDigitChar c || isJsWs c then none
    else nameLazyScan [c] t
  | [] => none

/-- Quantity alternative `数量\s*[:：]?\s*(\d+)` at one position. -/
def tryQty1 (l : List Char) : Option (List Char) :=
  match l with
  | '数' :: '量' :: r =>
    let r1 := r.dropWhile isJsWs
    let r2 : List Char := match r1 with
      | c :: t => if c = ':' ∨ c = '：' then t else r1
      | [] => r1
    let d := (r2.dropWhile isJsWs).takeWhile isDigitChar
    if d.isEmpty then none else some d
  | _ => none

/-- Quantity alternative `数量[xX×]\s*(\d+)` at one position. -/
def tryQty2 (l : List Char) : Option (List Char) :=
  match l with
  | '数' :: '量' :: c :: r =>
    if c = 'x' ∨ c = 'X' ∨ c = '×' then
      let d := (r.dropWhile isJsWs).takeWhile isDigitChar
      if d.isEmpty then none else some d
    else none
  | _ => none

/-- The unit class `[个件pcs]` under the regex's `/i` flag. -/
def isQtyUnit (c : Char) : Bool :=
  c = '个' || c = '件' || c = 'p' || c = 'c' || c = 's' || c = 'P' || c = 'C' || c = 'S'

/-- Quantity alternative `(\d+)\s*[个件pcs]` at one position. -/
def tryQty3 (l : List Char) : Option (List Char) :=
  let d := l.takeWhile isDigitChar
  let r := l.dropWhile isDigitChar
  if d.isEmpty then none else
  match r.dropWhile isJsWs with
  | c :: _ => if isQtyUnit c then some d else none
  | [] => none

/-- Leftmost-first search of
`/数量\s*[:：]?\s*(\d+)|数量[xX×]\s*(\d+)|(\d+)\s*[个件pcs]/i`. -/
def scanQty : List Char → Option (List Char)
  | [] => none
  | l@(_ :: t) =>
    match tryQty1 l with
    | some d => some d
    | none =>
      match tryQty2 l with
      | some d => some d
      | none =>
        match tryQty3 l with
        | some d => some d
        | none => scanQty t

/-- Extracted quantity of a text line: `parseInt(qty) || 1`, default 1. -/
def lineQty (line : List Char) : Int :=
  match scanQty line with
  | some d => if (digitsVal d : Int) = 0 then 1 else (digitsVal d : Int)
  | none => 1

/-- Extracted name: text following the first occurrence of the part number,
through the name regex, trimmed; `""` when the regex fails. -/
def lineName (line : List Char) (pn : List Char) : String :=
  let idx := (indexOfSub pn line).getD 0
  let rest := line.drop (idx + pn.length)
  match extractNameAfter rest with
  | some g => String.mk (jsTrim g)
  | none => ""

/-- Candidate record pushed for a text match (名称 defaults to 未知配件). -/
def mkTextCandidate (line : List Char) (pn : List Char) (note : String) : Candidate :=
  { drawingNumber := String.mk pn,
    name := some (if lineName line pn == "" then "未知配件" else lineName line pn),
    quantity := some (lineQty line),
    unitPrice := none,
    note := some note }

/-- The five specific patterns, in source priority order, with their type
tags. -/
def patternList : List ((List Char → Option (List Char)) × String) :=
  [(tryStandard, "STANDARD_CODE"), (tryScrew, "SCREW_CODE"),
   (tryBearing, "BEARING_CODE"), (tryComplex, "COMPLEX_CODE"),
   (trySpecial, "SPECIAL_CODE")]

/-- One pattern iteration of the per-line loop: a match is accepted iff it
passes the plausibility filter (`continue` otherwise), has length ≥ 3, is not
purely numeric, and was not seen before. -/
def acceptPattern (seen : List String) (line : List Char)
    (pat : (List Char → Option (List Char)) × String) : Option (List Char × String) :=
  match scanMatch pat.1 line with
  | none => none
  | some m =>
    if isBadPart m then none
    else if decide (3 ≤ m.length) && !isPureDigits m && !(seen.contains (String.mk m)) then
      some (m, pat.2)
    else none

/-- Processing of one line of `extractPartsFromPdfText`: the line filter, the
five-pattern loop with first-hit break, then the `[A-Z0-9]{5,}` fallback. -/
def processTextLine (seen : List String) (acc : List Candidate) (line : List Char) :
    List String × List Candidate :=
  if lineItemTest line then
    match patternList.findSome? (acceptPattern seen line) with
    | some (m, ty) =>
      (seen ++ [String.mk m], acc ++ [mkTextCandidate line m ("从文档中提取: " ++ ty)])
    | none =>
      if hasClassRun isUpperNum 5 line then
        match scanMatch tryFallbackRun line with
        | some m =>
          if !(seen.contains (String.mk m)) then
            if isBadPart m then (seen, acc)
            else (seen ++ [String.mk m],
              acc ++ [mkTextCandidate line m "从文档中提取: SPECIAL_FORMAT"])
          else (seen, acc)
        | none => (seen, acc)
      else (seen, acc)
  else (seen, acc)

/-- `text.split('\\n')` on character lists. -/
def splitLinesAux (cur : List Char) : List Char → List (List Char)
  | [] => [cur.reverse]
  | c :: t =>
    if c = '\n' then cur.reverse :: splitLinesAux [] t else splitLinesAux (c :: cur) t

def splitLines (text : String) : List (List Char) := splitLinesAux [] text.data

/-- `extractPartsFromPdfText(text)`: split on newlines, scan each line with
the shared `seen` set. -/
def extractPartsFromPdfText (text : String) : List Candidate :=
  ((splitLines text).foldl (fun st line => processTextLine st.1 st.2 line) ([], [])).2

/-- Claim C5's positive example line. -/
def c5Line : String := "1. 135-01-003A 输入轴总成 数量: 2"

/-- The candidate extracted from `c5Line`. -/
def c5Cand : Candidate :=
  { drawingNumber := "135-01-003A", name := some "输入轴总成", quantity := some 2,
    unitPrice := none, note := some "从文档中提取: STANDARD_CODE" }

-- ======================================================================
-- Reconciliation engine (processExtractedParts)
-- ======================================================================

/-- JS `a || b` for an optional string (`undefined` and `""` are falsy). -/
def jsStrOr (a : Option String) (b : String) : String :=
  match a with
  | some s => if s == "" then b else s
  | none => b

/-- JS `a || b` for an optional integer (`undefined` and 0 are falsy). -/
def jsIntOr (a : Option Int) (b : Int) : Int :=
  match a with
  | some n => if n = 0 then b else n
  | none => b

/-- JS `a || b` for an optional number (`undefined` and 0 are falsy). -/
def jsRatOr (a : Option ℚ) (b : ℚ) : ℚ :=
  match a with
  | some q => if q = 0 then b else q
  | none => b

/-- A line of the working quotation (`selectedParts` element): the spread
catalog fields plus import metadata.  `matchType = none` models the source's
`'none'` tag on synthesized entries; optional fields are absent (`undefined`)
on entries that were hand-selected rather than imported. -/
structure SelectionEntry where
  part : CatalogPart
  matchType : Option MatchType
  importedId : Option String
  quantity : Option Int
  importedPrice : Option ℚ
  importedRemark : Option String
  isNew : Bool
  deriving DecidableEq, Repr

/-- Matched branch: `{ ...matchResult, importedId, quantity, importedPrice,
importedRemark }`. -/
def matchedEntry (res : MatchResult) (pt : Candidate) : SelectionEntry :=
  { part := res.part, matchType := some res.matchType,
    importedId := some pt.drawingNumber,
    quantity := some (jsIntOr pt.quantity 1),
    importedPrice := some (jsRatOr pt.unitPrice 0),
    importedRemark := some (jsStrOr pt.note ""),
    isNew := false }

/-- Unmatched branch: the synthesized provisional part. -/
def newEntry (pt : Candidate) : SelectionEntry :=
  { part := { id := "NEW_" ++ pt.drawingNumber,
              drawingNumber := pt.drawingNumber,
              name := jsStrOr pt.name "未知配件",
              guidePriceNoTax := 0, factoryPriceNoTax := 0,
              servicePriceNoTax := 0, guidePriceTaxed := 0,
              factoryPriceTaxed := 0,
              servicePriceTaxed := jsRatOr pt.unitPrice 0,
              note := jsStrOr pt.note ("从客户文件导入: " ++ pt.drawingNumber),
              date := none },
    matchType := none, importedId := some pt.drawingNumber,
    quantity := some (jsIntOr pt.quantity 1),
    importedPrice := none, importedRemark := none,
    isNew := true }

/-- The per-candidate `try` body of `processBatch`: look the candidate up in
the catalog; on a match copy the catalog fields and attach import metadata,
otherwise synthesize a provisional `NEW_`-prefixed part.  A `null` candidate
throws (accessing `part['图号']` on `null`), modelled as `Except.error`.  The
boolean reports whether the candidate matched. -/
def perCandidate (partsData : List CatalogPart) (part : Option Candidate) :
    Except Unit (SelectionEntry × Bool) :=
  match part with
  | none => Except.error ()
  | some pt =>
    match enhancedFuzzyMatch pt.drawingNumber partsData with
    | some res => Except.ok (matchedEntry res pt, true)
    | none => Except.ok (newEntry pt, false)

/-- Accumulator of `processBatch`. -/
structure BatchState where
  matchedParts : List SelectionEntry
  matchedCount : Nat
  newCount : Nat
  processedCount : Nat
  deriving DecidableEq, Repr

/-- One candidate of the batch loop: the `try`/`catch` with its counter
updates; a throwing candidate only increments `processedCount`. -/
def stepCandidate (partsData : List CatalogPart) (bs : BatchState)
    (part : Option Candidate) : BatchState :=
  match perCandidate partsData part with
  | .ok (e, true) =>
    { bs with matchedParts := bs.matchedParts ++ [e],
              matchedCount := bs.matchedCount + 1,
              processedCount := bs.processedCount + 1 }
  | .ok (e, false) =>
    { bs with matchedParts := bs.matchedParts ++ [e],
              newCount := bs.newCount + 1,
              processedCount := bs.processedCount + 1 }
  | .error _ => { bs with processedCount := bs.processedCount + 1 }

/-- `const batchSize = 20`. -/
def batchSize : Nat := 20

/-- The chunked `processBatch(startIndex)` recursion (`slice` of 20, then a
deferred continuation); the fuel argument bounds the recursion and never runs
out when it starts at the list length. -/
def processBatches (partsData : List CatalogPart) :
    Nat → List (Option Candidate) → BatchState → BatchState
  | 0, _, bs => bs
  | fuel + 1, remaining, bs =>
    if remaining.isEmpty then bs
    else
      processBatches partsData fuel (remaining.drop batchSize)
        ((remaining.take batchSize).foldl (stepCandidate partsData) bs)

/-- `processBatch(0)` on a whole extracted batch. -/
def runBatch (partsData : List CatalogPart) (extracted : List (Option Candidate)) :
    BatchState :=
  processBatches partsData extracted.length extracted ⟨[], 0, 0, 0⟩

/-- The entries a batch run produces: one per non-throwing candidate, in
input order. -/
def batchEntries (partsData : List CatalogPart) (extracted : List (Option Candidate)) :
    List SelectionEntry :=
  extracted.filterMap (fun p => (perCandidate partsData p).toOption.map Prod.fst)

/-- The UI state touched by `processExtractedParts`: catalog, working
selection, view, info message, loading flag, current page, and the record of
`alert` calls. -/
structure SysState where
  partsData : List CatalogPart
  selectedParts : List SelectionEntry
  view : String
  infoMessage : Option String
  loading : Bool
  currentPage : Nat
  alerts : List String
  deriving DecidableEq, Repr

def emptyExtractionMsg : String := "未能从文件中提取到任何配件号，请检查文件格式。"

def finishMessage (bs : BatchState) : String :=
  "成功导入 " ++ toString bs.matchedParts.length ++ " 条配件数据！其中匹配成功 " ++
  toString bs.matchedCount ++ " 条，新配件 " ++ toString bs.newCount ++ " 条。"

/-- `processExtractedParts(extractedParts, partsData, ...)`: on an empty
batch, report and stop (only `loading`/`infoMessage` are reset, plus the
alert); otherwise run the batch and commit selection, view, page and the
summary message. -/
def processExtractedParts (extracted : List (Option Candidate)) (st : SysState) :
    SysState :=
  if extracted.length = 0 then
    { st with loading := false, infoMessage := none,
              alerts := st.alerts ++ [emptyExtractionMsg] }
  else
    let bs := runBatch st.partsData extracted
    { st with selectedParts := bs.matchedParts, view := "quotation",
              currentPage := 1, infoMessage := some (finishMessage bs),
              loading := false }

/-- An idle state with an empty catalog, for the concrete examples. -/
def st0 : SysState :=
  { partsData := [], selectedParts := [], view := "table", infoMessage := none,
    loading := true, currentPage := 1, alerts := [] }

/-- Claim C7's counterexample candidate: unmatched, with a customer price. -/
def c7Cand : Candidate :=
  { drawingNumber := "ZZ-NOPE-1", name := none, quantity := none,
    unitPrice := some 7, note := none }

/-- Claim C7's example candidate as stated (no unit price). -/
def c7CandNoPrice : Candidate :=
  { drawingNumber := "ZZ-NOPE-1", name := none, quantity := none,
    unitPrice := none, note := none }

/-- Claim C8's example: a 25-candidate batch whose candidate #13 (index 12)
is `null` and throws during processing. -/
def c8Batch : List (Option Candidate) :=
  (List.range 25).map (fun i =>
    if i = 12 then none
    else some { drawingNumber := "ID-" ++ toString i, name := none,
                quantity := some 1, unitPrice := none, note := none })

-- ======================================================================
-- Quotation price computations (statistics / CSV export / price override)
-- ======================================================================

/-- The six selectable price columns (`priceOption`). -/
inductive PriceOption where
  | guidePriceNoTax
  | factoryPriceNoTax
  | servicePriceNoTax
  | guidePriceTaxed
  | factoryPriceTaxed
  | servicePriceTaxed
  deriving DecidableEq, Repr

/-- Dynamic field read `p[priceOption]`. -/
def getPrice (e : SelectionEntry) (opt : PriceOption) : ℚ :=
  match opt with
  | .guidePriceNoTax => e.part.guidePriceNoTax
  | .factoryPriceNoTax => e.part.factoryPriceNoTax
  | .servicePriceNoTax => e.part.servicePriceNoTax
  | .guidePriceTaxed => e.part.guidePriceTaxed
  | .factoryPriceTaxed => e.part.factoryPriceTaxed
  | .servicePriceTaxed => e.part.servicePriceTaxed

/-- The unit-price expression `p.importedPrice || p[priceOption] || 0`, as it
appears verbatim in `statistics`, `exportQuotationCSV` and
`exportQuotationExcel`. -/
def linePriceExpr (p : SelectionEntry) (opt : PriceOption) : ℚ :=
  jsRatOr p.importedPrice (jsRatOr (some (getPrice p opt)) 0)

/-- `statistics.totalPrice`: `reduce((sum, p) => sum + priceVal * (p.quantity || 1), 0)`. -/
def statisticsTotalPrice (sel : List SelectionEntry) (opt : PriceOption) : ℚ :=
  sel.foldl (fun sum p => sum + linePriceExpr p opt * ((jsIntOr p.quantity 1 : Int) : ℚ)) 0

/-- The per-row `(price, itemTotal)` pairs of `exportQuotationCSV`. -/
def exportCsvRows (sel : List SelectionEntry) (opt : PriceOption) : List (ℚ × ℚ) :=
  sel.map (fun p =>
    (linePriceExpr p opt, linePriceExpr p opt * ((jsIntOr p.quantity 1 : Int) : ℚ)))

/-- The summed `总计` row of `exportQuotationCSV`. -/
def exportCsvTotal (sel : List SelectionEntry) (opt : PriceOption) : ℚ :=
  sel.foldl (fun sum p => sum + linePriceExpr p opt * ((jsIntOr p.quantity 1 : Int) : ℚ)) 0

/-- Exponent value of a `(e|E)[+-]?digits` prefix (0 if absent/invalid),
used by `parseFloat`. -/
def expVal (l : List Char) : Int :=
  match l with
  | c :: t =>
    if c = 'e' ∨ c = 'E' then
      match t with
      | '-' :: t1 =>
        if (t1.takeWhile isDigitChar).isEmpty then 0
        else -(digitsVal (t1.takeWhile isDigitChar) : Int)
      | '+' :: t1 =>
        if (t1.takeWhile isDigitChar).isEmpty then 0
        else (digitsVal (t1.takeWhile isDigitChar) : Int)
      | _ =>
        if (t.takeWhile isDigitChar).isEmpty then 0
        else (digitsVal (t.takeWhile isDigitChar) : Int)
    else 0
  | [] => 0

def qPow10 (n : Int) : ℚ :=
  if 0 ≤ n then ((10 : ℚ) ^ n.toNat) else 1 / ((10 : ℚ) ^ (-n).toNat)

/-- JS `parseFloat(s)` on finite decimal literals; `none` models `NaN`
(non-finite literals are outside the rational model). -/
def jsParseFloat (s : String) : Option ℚ :=
  let l := s.data.dropWhile isJsWs
  let sign : ℚ := match l with
    | '-' :: _ => -1
    | _ => 1
  let l1 : List Char := match l with
    | '-' :: t => t
    | '+' :: t => t
    | _ => l
  if "Infinity".data.isPrefixOf l1 then none
  else
    let d1 := l1.takeWhile isDigitChar
    match l1.dropWhile isDigitChar with
    | '.' :: t =>
      let d2 := t.takeWhile isDigitChar
      if d1.isEmpty && d2.isEmpty then none
      else some (sign * ((digitsVal d1 : ℚ) + (digitsVal d2 : ℚ) / ((10 : ℚ) ^ d2.length)) *
        qPow10 (expVal (t.dropWhile isDigitChar)))
    | r1 =>
      if d1.isEmpty then none
      else some (sign * (digitsVal d1 : ℚ) * qPow10 (expVal r1))

/-- `updatePartCustomPrice(partId, price)`:
`importedPrice = parseFloat(price) || 0` on the entry with that 标识码. -/
def updatePartCustomPrice (sel : List SelectionEntry) (partId : String)
    (price : String) : List SelectionEntry :=
  sel.map (fun part =>
    if part.part.id == partId then
      { part with importedPrice := some (jsRatOr (jsParseFloat price) 0) }
    else part)

/-- Unit price as the spec's words describe it: the override when present and
non-zero, else the currently selected catalog price field (0 when that is
absent/zero by the total-field model). -/
def specUnitPrice (p : SelectionEntry) (opt : PriceOption) : ℚ :=
  match p.importedPrice with
  | some v => if v ≠ 0 then v else getPrice p opt
  | none => getPrice p opt

-- ======================================================================
-- Theorems
-- ======================================================================

theorem jsToLowerChar_cases (c : Char) :
    (65 ≤ c.toNat ∧ c.toNat ≤ 90 ∧ (jsToLowerChar c).toNat = c.toNat + 32) ∨
    jsToLowerChar c = c := by
  by_cases h : 65 ≤ c.toNat ∧ c.toNat ≤ 90
  · exact Or.inl ⟨h.1, h.2, by unfold jsToLowerChar; rw [dif_pos h]; rfl⟩

  · exact Or.inr (by unfold jsToLowerChar; rw [dif_neg h])

theorem jsToLowerChar_eq_self (c : Char) (h : ¬(65 ≤ c.toNat ∧ c.toNat ≤ 90)) :
    jsToLowerChar c = c := by
  unfold jsToLowerChar; rw [dif_neg h]

theorem jsToLowerChar_idem (c : Char) :
    jsToLowerChar (jsToLowerChar c) = jsToLowerChar c := by
  rcases jsToLowerChar_cases c with ⟨_, _, h3⟩ | h
  · exact jsToLowerChar_eq_self _ (by omega)
  · simp only [h]

theorem isJsWs_jsToLowerChar (c : Char) : isJsWs (jsToLowerChar c) = isJsWs c := by
  rcases jsToLowerChar_cases c with ⟨h1, h2, h3⟩ | h
  · have e1 : isJsWs (jsToLowerChar c) = false := by
      unfold isJsWs; rw [decide_eq_false_iff_not]; omega
    have e2 : isJsWs c = false := by
      unfold isJsWs; rw [decide_eq_false_iff_not]; omega
    rw [e1, e2]
  · rw [h]

theorem repSepChar_idem (c : Char) : repSepChar (repSepChar c) = repSepChar c := by
  by_cases h : isSepChar c = true
  · have e : repSepChar c = '-' := by unfold repSepChar; rw [if_pos h]
    rw [e]; decide
  · have e : repSepChar c = c := by unfold repSepChar; rw [if_neg h]
    simp only [e]

theorem repSepChar_jsToLowerChar (c : Char) (h : repSepChar c = c) :
    repSepChar (jsToLowerChar c) = jsToLowerChar c := by
  rcases jsToLowerChar_cases c with ⟨h1, h2, h3⟩ | he
  · have e : isSepChar (jsToLowerChar c) = false := by
      unfold isSepChar; rw [decide_eq_false_iff_not]; omega
    unfold repSepChar; rw [e]; simp
  · rw [he]; exact h

theorem dropWhile_idem (p : Char → Bool) (l : List Char) :
    (l.dropWhile p).dropWhile p = l.dropWhile p := by
  induction l with
  | nil => rfl
  | cons a t ih =>
    by_cases h : p a = true
    · rw [List.dropWhile_cons, if_pos h, ih]
    · rw [List.dropWhile_cons, if_neg h, List.dropWhile_cons, if_neg h]

theorem dropWhile_fixed_of_dropWhile (p : Char → Bool) (m : List Char)
    (hm : m.dropWhile p = m) :
    ((m.reverse.dropWhile p).reverse).dropWhile p = (m.reverse.dropWhile p).reverse := by
  cases hm2 : m with
  | nil => simp
  | cons a t =>
    have ha : p a = false := by
      have := List.dropWhile_eq_self_iff.mp (hm2 ▸ hm) (by simp)
      simpa using this
    rw [List.reverse_cons, List.dropWhile_append]
    by_cases hemp : (t.reverse.dropWhile p).isEmpty = true
    · rw [if_pos hemp]
      rw [List.dropWhile_cons, if_neg (by rw [ha]; exact Bool.false_ne_true)]
      simp [List.dropWhile_cons, ha]
    · rw [if_neg hemp, List.reverse_append]
      simp only [List.reverse_cons, List.reverse_nil, List.nil_append, List.singleton_append]
      rw [List.dropWhile_cons, if_neg (by rw [ha]; exact Bool.false_ne_true)]

theorem jsTrim_idem (l : List Char) : jsTrim (jsTrim l) = jsTrim l := by
  unfold jsTrim
  have h1 : (l.dropWhile isJsWs).dropWhile isJsWs = l.dropWhile isJsWs :=
    dropWhile_idem _ _
  have h2 := dropWhile_fixed_of_dropWhile isJsWs (l.dropWhile isJsWs) h1
  rw [h2, List.reverse_reverse, dropWhile_idem]

theorem jsTrim_sublist (l : List Char) : (jsTrim l).Sublist l := by
  unfold jsTrim
  have h1 : (l.dropWhile isJsWs).Sublist l := List.dropWhile_sublist _
  have h2 : ((l.dropWhile isJsWs).reverse.dropWhile isJsWs).Sublist
      (l.dropWhile isJsWs).reverse := List.dropWhile_sublist _
  have h3 := h2.reverse
  rw [List.reverse_reverse] at h3
  exact h3.trans h1

theorem map_eq_self_of_forall {f : Char → Char} {l : List Char}
    (h : ∀ x ∈ l, f x = x) : l.map f = l := by
  conv_rhs => rw [← List.map_id l]
  exact List.map_congr_left h

/-- Claim C3: each of the four comparison-key functions is idempotent.
(Totality with string coercion holds by construction: the keys are total
Lean functions on the coerced string.) -/
theorem c3_key_idempotence (s : String) :
    exactKey (exactKey s) = exactKey s ∧
    caseInsensitiveKey (caseInsensitiveKey s) = caseInsensitiveKey s ∧
    noSpaceKey (noSpaceKey s) = noSpaceKey s ∧
    fuzzyKey (fuzzyKey s) = fuzzyKey s := by
  refine ⟨?_, ?_, ?_, ?_⟩
  · show String.mk (jsTrim (jsTrim s.data)) = String.mk (jsTrim s.data)
    rw [jsTrim_idem]
  · show String.mk (jsTrim ((jsTrim (s.data.map jsToLowerChar)).map jsToLowerChar)) = _
    have hfix : ∀ x ∈ jsTrim (s.data.map jsToLowerChar), jsToLowerChar x = x := by
      intro x hx
      have hx2 : x ∈ s.data.map jsToLowerChar := (jsTrim_sublist _).mem hx
      obtain ⟨y, _, rfl⟩ := List.mem_map.mp hx2
      exact jsToLowerChar_idem y
    rw [map_eq_self_of_forall hfix, jsTrim_idem]
    rfl
  · show String.mk (((s.data.filter _).filter _)) = _
    rw [List.filter_eq_self.mpr (fun a ha => (List.mem_filter.mp ha).2)]
    rfl
  · show String.mk (((((((s.data.map repSepChar).filter
        (fun c => !isJsWs c)).map jsToLowerChar).map repSepChar).filter
        (fun c => !isJsWs c)).map jsToLowerChar)) = _
    have hρ : ∀ x ∈ ((s.data.map repSepChar).filter (fun c => !isJsWs c)).map jsToLowerChar,
        repSepChar x = x := by
      intro x hx
      obtain ⟨w, hw, rfl⟩ := List.mem_map.mp hx
      have hw2 : w ∈ s.data.map repSepChar := (List.mem_filter.mp hw).1
      obtain ⟨z, _, rfl⟩ := List.mem_map.mp hw2
      exact repSepChar_jsToLowerChar _ (repSepChar_idem z)
    have hq : ∀ x ∈ ((s.data.map repSepChar).filter (fun c => !isJsWs c)).map jsToLowerChar,
        (!isJsWs x) = true := by
      intro x hx
      obtain ⟨w, hw, rfl⟩ := List.mem_map.mp hx
      have hw2 : (!isJsWs w) = true := (List.mem_filter.mp hw).2
      rw [isJsWs_jsToLowerChar]; exact hw2
    have hτ : ∀ x ∈ ((s.data.map repSepChar).filter (fun c => !isJsWs c)).map jsToLowerChar,
        jsToLowerChar x = x := by
      intro x hx
      obtain ⟨w, _, rfl⟩ := List.mem_map.mp hx
      exact jsToLowerChar_idem w
    rw [map_eq_self_of_forall hρ, List.filter_eq_self.mpr hq, map_eq_self_of_forall hτ]
    rfl

theorem find?_eq_some_of_first {α} (p : α → Bool) (l : List α) (i : Nat) (h : i < l.length)
    (hp : p (l.get ⟨i, h⟩) = true)
    (hmin : ∀ j (hj : j < i), p (l.get ⟨j, Nat.lt_trans hj h⟩) = false) :
    l.find? p = some (l.get ⟨i, h⟩) := by
  induction l generalizing i with
  | nil => exact absurd h (Nat.not_lt_zero i)
  | cons a t ih =>
    cases i with
    | zero => exact List.find?_cons_of_pos t hp
    | succ i =>
      have ha : p a = false := hmin 0 (Nat.succ_pos i)
      rw [List.find?_cons_of_neg t (by rw [ha]; exact Bool.false_ne_true)]
      exact ih i (Nat.lt_of_succ_lt_succ h) hp
        (fun j hj => hmin (j + 1) (Nat.succ_lt_succ hj))

/-- Claim C1: `enhancedFuzzyMatch` tries the four tiers strictly in the order
exact, case-insensitive, no-space, normalized-fuzzy and returns the first hit,
tie-breaking within a tier by first position in catalog iteration order; in
particular for a catalog containing both "135-01-003A" and "135-01-003a" the
candidate "135-01-003A" matches the first part with matchType exact and never
falls through to the case-insensitive tier. -/
theorem c1_tier_precedence (partsData : List CatalogPart) (importedId : String) :
    (∀ i (h : i < partsData.length),
        exactKey (partsData.get ⟨i, h⟩).drawingNumber = exactKey importedId →
        (∀ j (hj : j < i),
          exactKey (partsData.get ⟨j, Nat.lt_trans hj h⟩).drawingNumber ≠ exactKey importedId) →
        enhancedFuzzyMatch importedId partsData =
          some ⟨partsData.get ⟨i, h⟩, MatchType.exact⟩) ∧
    ((∀ p ∈ partsData, exactKey p.drawingNumber ≠ exactKey importedId) →
      ∀ i (h : i < partsData.length),
        caseInsensitiveKey (partsData.get ⟨i, h⟩).drawingNumber =
          caseInsensitiveKey importedId →
        (∀ j (hj : j < i),
          caseInsensitiveKey (partsData.get ⟨j, Nat.lt_trans hj h⟩).drawingNumber ≠
            caseInsensitiveKey importedId) →
        enhancedFuzzyMatch importedId partsData =
          some ⟨partsData.get ⟨i, h⟩, MatchType.caseInsensitive⟩) ∧
    ((∀ p ∈ partsData, exactKey p.drawingNumber ≠ exactKey importedId) →
      (∀ p ∈ partsData,
        caseInsensitiveKey p.drawingNumber ≠ caseInsensitiveKey importedId) →
      ∀ i (h : i < partsData.length),
        noSpaceKey (partsData.get ⟨i, h⟩).drawingNumber = noSpaceKey importedId →
        (∀ j (hj : j < i),
          noSpaceKey (partsData.get ⟨j, Nat.lt_trans hj h⟩).drawingNumber ≠
            noSpaceKey importedId) →
        enhancedFuzzyMatch importedId partsData =
          some ⟨partsData.get ⟨i, h⟩, MatchType.noSpace⟩) ∧
    ((∀ p ∈ partsData, exactKey p.drawingNumber ≠ exactKey importedId) →
      (∀ p ∈ partsData,
        caseInsensitiveKey p.drawingNumber ≠ caseInsensitiveKey importedId) →
      (∀ p ∈ partsData, noSpaceKey p.drawingNumber ≠ noSpaceKey importedId) →
      ∀ i (h : i < partsData.length),
        fuzzyKey (partsData.get ⟨i, h⟩).drawingNumber = fuzzyKey importedId →
        (∀ j (hj : j < i),
          fuzzyKey (partsData.get ⟨j, Nat.lt_trans hj h⟩).drawingNumber ≠
            fuzzyKey importedId) →
        enhancedFuzzyMatch importedId partsData =
          some ⟨partsData.get ⟨i, h⟩, MatchType.fuzzy⟩) ∧
    ((∀ p ∈ partsData, exactKey p.drawingNumber ≠ exactKey importedId) →
      (∀ p ∈ partsData,
        caseInsensitiveKey p.drawingNumber ≠ caseInsensitiveKey importedId) →
      (∀ p ∈ partsData, noSpaceKey p.drawingNumber ≠ noSpaceKey importedId) →
      (∀ p ∈ partsData, fuzzyKey p.drawingNumber ≠ fuzzyKey importedId) →
      enhancedFuzzyMatch importedId partsData = none) ∧
    enhancedFuzzyMatch "135-01-003A" [c1PartUpper, c1PartLower] =
      some ⟨c1PartUpper, MatchType.exact⟩ := by
  refine ⟨?_, ?_, ?_, ?_, ?_, by decide⟩
  · intro i h hp hmin
    have hfind : partsData.find?
        (fun part => exactKey part.drawingNumber == exactKey importedId) =
        some (partsData.get ⟨i, h⟩) := by
      apply find?_eq_some_of_first
      · rw [beq_iff_eq]; exact hp
      · intro j hj; rw [beq_eq_false_iff_ne]; exact hmin j hj
    unfold enhancedFuzzyMatch; rw [hfind]
  · intro hnone i h hp hmin
    have h1 : partsData.find?
        (fun part => exactKey part.drawingNumber == exactKey importedId) = none :=
      List.find?_eq_none.mpr (fun x hx => by
        simp only [beq_iff_eq]; exact hnone x hx)
    have hfind : partsData.find?
        (fun part => caseInsensitiveKey part.drawingNumber ==
          caseInsensitiveKey importedId) = some (partsData.get ⟨i, h⟩) := by
      apply find?_eq_some_of_first
      · rw [beq_iff_eq]; exact hp
      · intro j hj; rw [beq_eq_false_iff_ne]; exact hmin j hj
    unfold enhancedFuzzyMatch; rw [h1, hfind]
  · intro hnone1 hnone2 i h hp hmin
    have h1 : partsData.find?
        (fun part => exactKey part.drawingNumber == exactKey importedId) = none :=
      List.find?_eq_none.mpr (fun x hx => by
        simp only [beq_iff_eq]; exact hnone1 x hx)
    have h2 : partsData.find?
        (fun part => caseInsensitiveKey part.drawingNumber ==
          caseInsensitiveKey importedId) = none :=
      List.find?_eq_none.mpr (fun x hx => by
        simp only [beq_iff_eq]; exact hnone2 x hx)
    have hfind : partsData.find?
        (fun part => noSpaceKey part.drawingNumber == noSpaceKey importedId) =
        some (partsData.get ⟨i, h⟩) := by
      apply find?_eq_some_of_first
      · rw [beq_iff_eq]; exact hp
      · intro j hj; rw [beq_eq_false_iff_ne]; exact hmin j hj
    unfold enhancedFuzzyMatch; rw [h1, h2, hfind]
  · intro hnone1 hnone2 hnone3 i h hp hmin
    have h1 : partsData.find?
        (fun part => exactKey part.drawingNumber == exactKey importedId) = none :=
      List.find?_eq_none.mpr (fun x hx => by
        simp only [beq_iff_eq]; exact hnone1 x hx)
    have h2 : partsData.find?
        (fun part => caseInsensitiveKey part.drawingNumber ==
          caseInsensitiveKey importedId) = none :=
      List.find?_eq_none.mpr (fun x hx => by
        simp only [beq_iff_eq]; exact hnone2 x hx)
    have h3 : partsData.find?
        (fun part => noSpaceKey part.drawingNumber == noSpaceKey importedId) = none :=
      List.find?_eq_none.mpr (fun x hx => by
        simp only [beq_iff_eq]; exact hnone3 x hx)
    have hfind : partsData.find?
        (fun part => fuzzyKey part.drawingNumber == fuzzyKey importedId) =
        some (partsData.get ⟨i, h⟩) := by
      apply find?_eq_some_of_first
      · rw [beq_iff_eq]; exact hp
      · intro j hj; rw [beq_eq_false_iff_ne]; exact hmin j hj
    unfold enhancedFuzzyMatch; rw [h1, h2, h3, hfind]
  · intro hnone1 hnone2 hnone3 hnone4
    have h1 : partsData.find?
        (fun part => exactKey part.drawingNumber == exactKey importedId) = none :=
      List.find?_eq_none.mpr (fun x hx => by
        simp only [beq_iff_eq]; exact hnone1 x hx)
    have h2 : partsData.find?
        (fun part => caseInsensitiveKey part.drawingNumber ==
          caseInsensitiveKey importedId) = none :=
      List.find?_eq_none.mpr (fun x hx => by
        simp only [beq_iff_eq]; exact hnone2 x hx)
    have h3 : partsData.find?
        (fun part => noSpaceKey part.drawingNumber == noSpaceKey importedId) = none :=
      List.find?_eq_none.mpr (fun x hx => by
        simp only [beq_iff_eq]; exact hnone3 x hx)
    have h4 : partsData.find?
        (fun part => fuzzyKey part.drawingNumber == fuzzyKey importedId) = none :=
      List.find?_eq_none.mpr (fun x hx => by
        simp only [beq_iff_eq]; exact hnone4 x hx)
    unfold enhancedFuzzyMatch; rw [h1, h2, h3, h4]

/-- Witness for claim C1 at the claim's own concrete inputs: matching
"135-01-003A" against a catalog holding both case variants hits the exact
tier on the first part. -/
theorem c1_tier_precedence_witness :
    enhancedFuzzyMatch "135-01-003A" [c1PartUpper, c1PartLower] =
      some ⟨c1PartUpper, MatchType.exact⟩ :=
  (c1_tier_precedence [c1PartUpper, c1PartLower] "135-01-003A").1 0 (by decide)
    (by decide) (fun j hj => absurd hj (Nat.not_lt_zero j))

/-- Claim C2 as stated is FALSE: the candidate "135．01－003A" (fullwidth full
stop U+FF0E and fullwidth hyphen U+FF0D) does NOT match catalog entry
"135-01-003A" at the normalized-fuzzy tier, because the source's separator
class `[-_．.・]` does not contain the fullwidth hyphen: the match returns
no result at all. -/
theorem c2_counterexample :
    fuzzyKey "135．01－003A" ≠ fuzzyKey "135-01-003A" ∧
    enhancedFuzzyMatch "135．01－003A" [c2Part] = none :=
  ⟨by decide, by decide⟩

/-- Claim C2 (amended): the normalized-fuzzy tier collapses exactly the family
hyphen-minus, underscore, fullwidth full stop, full stop, katakana middle dot
to "-" (after lower-casing and whitespace removal); e.g. candidate
"135．01_003A" matches catalog entry "135-01-003A" with matchType fuzzy when
no higher tier matches. -/
theorem c2_amended :
    (∀ c : Char, isSepChar c = true → fuzzyKey (String.mk [c]) = "-") ∧
    fuzzyKey "135．01_003A" = fuzzyKey "135-01-003A" ∧
    enhancedFuzzyMatch "135．01_003A" [c2Part] = some ⟨c2Part, MatchType.fuzzy⟩ := by
  refine ⟨?_, by decide, by decide⟩
  intro c hc
  have e : repSepChar c = '-' := by unfold repSepChar; rw [if_pos hc]
  show String.mk ((([c].map repSepChar).filter (fun x => !isJsWs x)).map jsToLowerChar) = "-"
  rw [List.map_cons, List.map_nil, e]
  decide

/-- Witness for the amended claim C2: the katakana middle dot is in the
separator family and is collapsed to "-" by the fuzzy key. -/
theorem c2_amended_witness :
    isSepChar '・' = true ∧ fuzzyKey (String.mk ['・']) = "-" :=
  ⟨by decide, c2_amended.1 '・' (by decide)⟩

theorem mem_concatMap {α β : Type} (f : α → List β) (l : List α) (x : β) :
    x ∈ concatMap f l ↔ ∃ a ∈ l, x ∈ f a := by
  induction l with
  | nil => simp [concatMap]
  | cons a t ih => simp [concatMap, List.mem_append, ih]

theorem removeDuplicatesAux_sublist (seen : List String) (l : List Candidate) :
    (removeDuplicatesAux seen l).Sublist l := by
  induction l generalizing seen with
  | nil => simp [removeDuplicatesAux]
  | cons x xs ih =>
    unfold removeDuplicatesAux
    by_cases h : x.drawingNumber ∈ seen
    · rw [if_pos h]
      exact (ih seen).trans (List.sublist_cons_self x xs)
    · rw [if_neg h]
      exact (ih _).cons₂ x

theorem removeDuplicatesAux_keys (l : List Candidate) (seen : List String) :
    (∀ x ∈ removeDuplicatesAux seen l, x.drawingNumber ∉ seen) ∧
    ((removeDuplicatesAux seen l).map (fun c => c.drawingNumber)).Nodup := by
  induction l generalizing seen with
  | nil => simp [removeDuplicatesAux]
  | cons x xs ih =>
    unfold removeDuplicatesAux
    by_cases h : x.drawingNumber ∈ seen
    · rw [if_pos h]; exact ih seen
    · rw [if_neg h]
      obtain ⟨ih1, ih2⟩ := ih (x.drawingNumber :: seen)
      refine ⟨?_, ?_⟩
      · intro y hy
        rcases List.mem_cons.mp hy with rfl | hy2
        · exact h
        · exact fun hc => ih1 y hy2 (List.mem_cons_of_mem _ hc)
      · rw [List.map_cons]
        refine List.Nodup.cons ?_ ih2
        intro hc
        obtain ⟨y, hy, hkey⟩ := List.mem_map.mp hc
        exact ih1 y hy (hkey ▸ List.mem_cons_self _ _)

theorem removeDuplicatesAux_find (l : List Candidate) (seen : List String) (k : String)
    (hk : k ∉ seen) :
    (removeDuplicatesAux seen l).find? (fun y => y.drawingNumber == k) =
      l.find? (fun y => y.drawingNumber == k) := by
  induction l generalizing seen with
  | nil => rfl
  | cons x xs ih =>
    unfold removeDuplicatesAux
    by_cases hx : x.drawingNumber ∈ seen
    · rw [if_pos hx]
      have hne : ¬(x.drawingNumber == k) = true := fun hcon =>
        hk (beq_iff_eq.mp hcon ▸ hx)
      rw [@List.find?_cons_of_neg _ (fun y => y.drawingNumber == k) x xs hne, ih seen hk]
    · rw [if_neg hx]
      by_cases hpk : (x.drawingNumber == k) = true
      · rw [@List.find?_cons_of_pos _ (fun y => y.drawingNumber == k) x
            (removeDuplicatesAux (x.drawingNumber :: seen) xs) hpk,
          @List.find?_cons_of_pos _ (fun y => y.drawingNumber == k) x xs hpk]
      · rw [@List.find?_cons_of_neg _ (fun y => y.drawingNumber == k) x
            (removeDuplicatesAux (x.drawingNumber :: seen) xs) hpk,
          @List.find?_cons_of_neg _ (fun y => y.drawingNumber == k) x xs hpk]
        apply ih
        intro hmem
        rcases List.mem_cons.mp hmem with heq | hmem2
        · exact hpk (beq_iff_eq.mpr heq.symm)
        · exact hk hmem2

/-- Claim C4: tabular extraction deduplicates by identifier across the whole
scan, first occurrence winning: output identifiers are pairwise distinct, the
first hit for any identifier is the same in the deduplicated output as in the
raw scan, and the sheet holding `NJ313` in both A1 and B5 yields exactly one
candidate, with identifier `NJ313`. -/
theorem c4_tabular_dedup :
    (∀ workbook : List Sheet,
      ((extractGenericPartsList workbook).map (fun c => c.drawingNumber)).Nodup) ∧
    (∀ (workbook : List Sheet) (k : String),
      (extractGenericPartsList workbook).find? (fun y => y.drawingNumber == k) =
        (rawTabularScan workbook).find? (fun y => y.drawingNumber == k)) ∧
    (extractGenericPartsList c4Workbook).map (fun c => c.drawingNumber) = ["NJ313"] ∧
    (rawTabularScan c4Workbook).length = 2 := by
  refine ⟨?_, ?_, by decide, by decide⟩
  · intro wb
    exact (removeDuplicatesAux_keys (rawTabularScan wb) []).2
  · intro wb k
    exact removeDuplicatesAux_find (rawTabularScan wb) [] k (List.not_mem_nil k)

theorem scanCell_quantity (s : Sheet) (r c : Nat) (cand : Candidate)
    (h : scanCell s r c = some cand) : cand.quantity = some (tabularQty s r c) := by
  unfold scanCell at h
  split at h
  · exact absurd h (by simp)
  · split at h
    · split at h
      · cases h; rfl
      · exact absurd h (by simp)
    · exact absurd h (by simp)

theorem tabularQty_ne_zero (s : Sheet) (r c : Nat) : tabularQty s r c ≠ 0 := by
  unfold tabularQty
  repeat' split
  all_goals omega

/-- Claim C9 is FALSE as stated: a numeric adjacent cell of `-3` produces a
tabular candidate whose quantity is the negative integer `-3`. -/
theorem c9_counterexample :
    (extractGenericPartsList c9Workbook).map (fun c => (c.drawingNumber, c.quantity)) =
      [("NJ313", some (-3 : Int))] ∧ (-3 : Int) < 0 :=
  ⟨by decide, by decide⟩

/-- Claim C9 (amended): every tabular candidate's quantity is a NONZERO
integer — `parseInt(adjacent) || 1` guards `0` and `NaN` with the default 1,
but keeps negative parses, so positivity does not hold. -/
theorem c9_quantity_nonzero (workbook : List Sheet) (x : Candidate)
    (hx : x ∈ extractGenericPartsList workbook) :
    ∃ n : Int, x.quantity = some n ∧ n ≠ 0 := by
  have hx2 : x ∈ rawTabularScan workbook :=
    (removeDuplicatesAux_sublist [] (rawTabularScan workbook)).mem hx
  obtain ⟨s, _, hx3⟩ := (mem_concatMap _ _ _).mp hx2
  obtain ⟨r, _, hx4⟩ := (mem_concatMap _ _ _).mp hx3
  obtain ⟨c, _, hx5⟩ := List.mem_filterMap.mp hx4
  exact ⟨tabularQty s r c, scanCell_quantity s r c x hx5, tabularQty_ne_zero s r c⟩

/-- Witness for the amended claim C9 at the concrete counterexample workbook:
the produced candidate is a member and its quantity is a nonzero integer. -/
theorem c9_quantity_nonzero_witness :
    c9Cand ∈ extractGenericPartsList c9Workbook ∧
    ∃ n : Int, c9Cand.quantity = some n ∧ n ≠ 0 :=
  ⟨by decide, c9_quantity_nonzero c9Workbook c9Cand (by decide)⟩

theorem acceptPattern_isBadPart (seen : List String) (line : List Char)
    (pat : (List Char → Option (List Char)) × String) (m : List Char) (ty : String)
    (h : acceptPattern seen line pat = some (m, ty)) : isBadPart m = false := by
  unfold acceptPattern at h
  split at h
  · exact absurd h (by simp)
  · split at h
    · exact absurd h (by simp)
    · split at h
      · next hbad _ =>
          cases h
          exact Bool.eq_false_iff.mpr hbad
      · exact absurd h (by simp)

theorem processTextLine_bad (seen : List String) (acc : List Candidate)
    (line : List Char) :
    ∀ x ∈ (processTextLine seen acc line).2,
      x ∈ acc ∨ isBadPart x.drawingNumber.data = false := by
  intro x hx
  unfold processTextLine at hx
  split at hx
  · split at hx
    · next m ty heq =>
        rcases List.mem_append.mp hx with h1 | h2
        · exact Or.inl h1
        · obtain ⟨pat, _, hacc⟩ := List.exists_of_findSome?_eq_some heq
          have hbad := acceptPattern_isBadPart seen line pat m ty hacc
          rw [List.mem_singleton.mp h2]
          exact Or.inr hbad
    · split at hx
      · split at hx
        · next m heq2 =>
            split at hx
            · split at hx
              · exact Or.inl hx
              · next hbad =>
                  rcases List.mem_append.mp hx with h1 | h2
                  · exact Or.inl h1
                  · rw [List.mem_singleton.mp h2]
                    exact Or.inr (Bool.eq_false_iff.mpr hbad)
            · exact Or.inl hx
        · exact Or.inl hx
      · exact Or.inl hx
  · exact Or.inl hx

theorem extractText_fold_bad (lines : List (List Char)) :
    ∀ (seen : List String) (acc : List Candidate) (x : Candidate),
      x ∈ (lines.foldl (fun st line => processTextLine st.1 st.2 line) (seen, acc)).2 →
      x ∈ acc ∨ isBadPart x.drawingNumber.data = false := by
  induction lines with
  | nil => intro seen acc x hx; exact Or.inl hx
  | cons l ls ih =>
    intro seen acc x hx
    rw [List.foldl_cons] at hx
    rcases ih (processTextLine seen acc l).1 (processTextLine seen acc l).2 x hx
      with h1 | h2
    · exact processTextLine_bad seen acc l x h1
    · exact Or.inr h2

/-- Claim C5: text-mode extraction never emits a candidate whose identifier
has the date shape, is a pure digit run of length ≥ 5, or has the phone
shape; in particular the line 日期: 2025-03-15 yields zero candidates. -/
theorem c5_plausibility :
    (∀ (text : String) (x : Candidate), x ∈ extractPartsFromPdfText text →
      isDateShape x.drawingNumber.data = false ∧
      isLongDigitRun x.drawingNumber.data = false ∧
      isPhoneShape x.drawingNumber.data = false) ∧
    extractPartsFromPdfText "日期: 2025-03-15" = [] := by
  refine ⟨?_, by decide⟩
  intro text x hx
  rcases extractText_fold_bad (splitLines text) [] [] x hx with h1 | h2
  · exact absurd h1 (List.not_mem_nil x)
  · unfold isBadPart at h2
    rw [Bool.or_eq_false_iff, Bool.or_eq_false_iff] at h2
    exact ⟨h2.1.1, h2.1.2, h2.2⟩

/-- Witness for claim C5: a list-item line yields a (plausible) candidate
whose identifier passes all three shape filters. -/
theorem c5_plausibility_witness :
    c5Cand ∈ extractPartsFromPdfText c5Line ∧
    (isDateShape c5Cand.drawingNumber.data = false ∧
     isLongDigitRun c5Cand.drawingNumber.data = false ∧
     isPhoneShape c5Cand.drawingNumber.data = false) :=
  ⟨by decide, c5_plausibility.1 c5Line c5Cand (by decide)⟩

/-- Claim C6: an empty candidate batch is reported to the user via `alert`
and processing stops at once — the working selection, the view, the catalog
and the page are all left as they were. -/
theorem c6_empty_extraction (st : SysState) (extracted : List (Option Candidate))
    (h : extracted = []) :
    (processExtractedParts extracted st).selectedParts = st.selectedParts ∧
    (processExtractedParts extracted st).view = st.view ∧
    (processExtractedParts extracted st).partsData = st.partsData ∧
    (processExtractedParts extracted st).currentPage = st.currentPage ∧
    (processExtractedParts extracted st).alerts = st.alerts ++ [emptyExtractionMsg] := by
  subst h
  exact ⟨rfl, rfl, rfl, rfl, rfl⟩

/-- Witness for claim C6 at the concrete idle state. -/
theorem c6_empty_extraction_witness :
    (processExtractedParts [] st0).selectedParts = st0.selectedParts ∧
    (processExtractedParts [] st0).view = st0.view ∧
    (processExtractedParts [] st0).partsData = st0.partsData ∧
    (processExtractedParts [] st0).currentPage = st0.currentPage ∧
    (processExtractedParts [] st0).alerts = st0.alerts ++ [emptyExtractionMsg] :=
  c6_empty_extraction st0 [] rfl

/-- Claim C7 is FALSE as stated: an unmatched candidate that carries an
imported unit price (here 7) yields a synthesized entry whose
服务价（含税） (service price, tax-inclusive) is that price, not 0 — only
five of the six canonical price fields are zeroed. -/
theorem c7_counterexample :
    (processExtractedParts [some c7Cand] st0).selectedParts.map
      (fun e => (e.part.id, e.part.drawingNumber, e.isNew, e.part.servicePriceTaxed)) =
      [("NEW_ZZ-NOPE-1", "ZZ-NOPE-1", true, (7 : ℚ))] ∧ (7 : ℚ) ≠ 0 :=
  ⟨by decide, by decide⟩

/-- Claim C7 (amended): for every candidate that matches no catalog part at
any tier, reconciliation synthesizes exactly one provisional entry: id is
`"NEW_" ++ identifier`, drawingNumber is the identifier, `isNew = true`,
five canonical price fields are 0 and 服务价（含税） is the imported unit
price (0 when absent, as in the claim's own example). -/
theorem c7_unmatched_synthesis (st : SysState) (c : Candidate)
    (h : enhancedFuzzyMatch c.drawingNumber st.partsData = none) :
    (processExtractedParts [some c] st).selectedParts =
      [{ part := { id := "NEW_" ++ c.drawingNumber,
                   drawingNumber := c.drawingNumber,
                   name := jsStrOr c.name "未知配件",
                   guidePriceNoTax := 0, factoryPriceNoTax := 0,
                   servicePriceNoTax := 0, guidePriceTaxed := 0,
                   factoryPriceTaxed := 0,
                   servicePriceTaxed := jsRatOr c.unitPrice 0,
                   note := jsStrOr c.note ("从客户文件导入: " ++ c.drawingNumber),
                   date := none },
         matchType := none, importedId := some c.drawingNumber,
         quantity := some (jsIntOr c.quantity 1),
         importedPrice := none, importedRemark := none, isNew := true }] := by
  have h1 : (processExtractedParts [some c] st).selectedParts =
      (stepCandidate st.partsData ⟨[], 0, 0, 0⟩ (some c)).matchedParts := rfl
  have hred : perCandidate st.partsData (some c) =
      (match enhancedFuzzyMatch c.drawingNumber st.partsData with
       | some res => Except.ok (matchedEntry res c, true)
       | none => Except.ok (newEntry c, false)) := rfl
  have hpc : perCandidate st.partsData (some c) = Except.ok (newEntry c, false) := by
    rw [hred, h]
  rw [h1]
  unfold stepCandidate
  rw [hpc]
  rfl

/-- Witness for the amended claim C7: the claim's own example candidate
(no imported price) against the empty catalog — all six price fields 0. -/
theorem c7_unmatched_synthesis_witness :
    (processExtractedParts [some c7CandNoPrice] st0).selectedParts =
      [{ part := { id := "NEW_" ++ c7CandNoPrice.drawingNumber,
                   drawingNumber := c7CandNoPrice.drawingNumber,
                   name := jsStrOr c7CandNoPrice.name "未知配件",
                   guidePriceNoTax := 0, factoryPriceNoTax := 0,
                   servicePriceNoTax := 0, guidePriceTaxed := 0,
                   factoryPriceTaxed := 0,
                   servicePriceTaxed := jsRatOr c7CandNoPrice.unitPrice 0,
                   note := jsStrOr c7CandNoPrice.note
                     ("从客户文件导入: " ++ c7CandNoPrice.drawingNumber),
                   date := none },
         matchType := none, importedId := some c7CandNoPrice.drawingNumber,
         quantity := some (jsIntOr c7CandNoPrice.quantity 1),
         importedPrice := none, importedRemark := none, isNew := true }] :=
  c7_unmatched_synthesis st0 c7CandNoPrice (by decide)

theorem processBatches_eq_foldl (partsData : List CatalogPart) :
    ∀ (fuel : Nat) (l : List (Option Candidate)) (bs : BatchState),
      l.length ≤ fuel →
      processBatches partsData fuel l bs = l.foldl (stepCandidate partsData) bs := by
  intro fuel
  induction fuel with
  | zero =>
    intro l bs h
    rw [List.eq_nil_of_length_eq_zero (Nat.le_zero.mp h)]
    rfl
  | succ f ih =>
    intro l bs h
    cases l with
    | nil => rfl
    | cons a t =>
      have hstep : processBatches partsData (f + 1) (a :: t) bs =
          processBatches partsData f ((a :: t).drop batchSize)
            (((a :: t).take batchSize).foldl (stepCandidate partsData) bs) := rfl
      rw [hstep, ih _ _ ?_, ← List.foldl_append, List.take_append_drop]
      simp only [List.length_drop, List.length_cons, batchSize]
      simp only [List.length_cons] at h
      omega

theorem foldl_step_spec (partsData : List CatalogPart) :
    ∀ (l : List (Option Candidate)) (bs : BatchState),
      (l.foldl (stepCandidate partsData) bs).matchedParts =
        bs.matchedParts ++
          l.filterMap (fun p => (perCandidate partsData p).toOption.map Prod.fst) ∧
      (l.foldl (stepCandidate partsData) bs).matchedCount +
          (l.foldl (stepCandidate partsData) bs).newCount + bs.matchedParts.length =
        bs.matchedCount + bs.newCount +
          (l.foldl (stepCandidate partsData) bs).matchedParts.length := by
  intro l
  induction l with
  | nil => intro bs; simp
  | cons a t ih =>
    intro bs
    rw [List.foldl_cons]
    rcases hpc : perCandidate partsData a with e | ⟨e, b⟩
    · have hstep : stepCandidate partsData bs a =
          { bs with processedCount := bs.processedCount + 1 } := by
        unfold stepCandidate; rw [hpc]
      have hfm : (a :: t).filterMap
            (fun p => (perCandidate partsData p).toOption.map Prod.fst) =
          t.filterMap (fun p => (perCandidate partsData p).toOption.map Prod.fst) := by
        rw [List.filterMap_cons]
        simp [hpc, Except.toOption]
      obtain ⟨ih1, ih2⟩ := ih { bs with processedCount := bs.processedCount + 1 }
      rw [hstep, hfm]
      exact ⟨ih1, ih2⟩
    · have hfm : (a :: t).filterMap
            (fun p => (perCandidate partsData p).toOption.map Prod.fst) =
          e :: t.filterMap (fun p => (perCandidate partsData p).toOption.map Prod.fst) := by
        rw [List.filterMap_cons]
        simp [hpc, Except.toOption]
      cases b with
      | true =>
        have hstep : stepCandidate partsData bs a =
            { bs with matchedParts := bs.matchedParts ++ [e],
                      matchedCount := bs.matchedCount + 1,
                      processedCount := bs.processedCount + 1 } := by
          unfold stepCandidate; rw [hpc]
        obtain ⟨ih1, ih2⟩ := ih { bs with matchedParts := bs.matchedParts ++ [e],
                                          matchedCount := bs.matchedCount + 1,
                                          processedCount := bs.processedCount + 1 }
        rw [hstep, hfm]
        constructor
        · rw [ih1]
          simp
        · rw [ih1] at ih2 ⊢
          simp only [List.length_append, List.length_cons, List.length_nil] at ih2 ⊢
          omega
      | false =>
        have hstep : stepCandidate partsData bs a =
            { bs with matchedParts := bs.matchedParts ++ [e],
                      newCount := bs.newCount + 1,
                      processedCount := bs.processedCount + 1 } := by
          unfold stepCandidate; rw [hpc]
        obtain ⟨ih1, ih2⟩ := ih { bs with matchedParts := bs.matchedParts ++ [e],
                                          newCount := bs.newCount + 1,
                                          processedCount := bs.processedCount + 1 }
        rw [hstep, hfm]
        constructor
        · rw [ih1]
          simp
        · rw [ih1] at ih2 ⊢
          simp only [List.length_append, List.length_cons, List.length_nil] at ih2 ⊢
          omega

/-- Claim C8: a per-candidate error is caught and only that candidate is
skipped — the batch yields exactly the entries of the non-throwing
candidates in input order, `matchedCount + newCount` equals the number of
produced entries, and the 25-candidate batch whose candidate #13 throws
yields 24 entries with `matchedCount + newCount = 24`. -/
theorem c8_batch_integrity :
    (∀ (partsData : List CatalogPart) (extracted : List (Option Candidate)),
      (runBatch partsData extracted).matchedParts = batchEntries partsData extracted ∧
      (runBatch partsData extracted).matchedCount +
          (runBatch partsData extracted).newCount =
        (runBatch partsData extracted).matchedParts.length) ∧
    (c8Batch.length = 25 ∧
     (runBatch [] c8Batch).matchedParts.length = 24 ∧
     (runBatch [] c8Batch).matchedCount + (runBatch [] c8Batch).newCount = 24) := by
  refine ⟨?_, by decide, by decide, by decide⟩
  intro pd ext
  have hrun : runBatch pd ext = ext.foldl (stepCandidate pd) ⟨[], 0, 0, 0⟩ :=
    processBatches_eq_foldl pd ext.length ext ⟨[], 0, 0, 0⟩ (Nat.le_refl _)
  obtain ⟨h1, h2⟩ := foldl_step_spec pd ext ⟨[], 0, 0, 0⟩
  rw [hrun]
  constructor
  · simpa [batchEntries] using h1
  · simpa using h2

theorem jsRatOr_some_zero (g : ℚ) : jsRatOr (some g) 0 = g := by
  show (if g = 0 then (0 : ℚ) else g) = g
  by_cases h : g = 0
  · rw [if_pos h, h]
  · rw [if_neg h]

theorem linePriceExpr_eq_spec (p : SelectionEntry) (opt : PriceOption) :
    linePriceExpr p opt = specUnitPrice p opt := by
  unfold linePriceExpr specUnitPrice
  rw [jsRatOr_some_zero]
  cases hp : p.importedPrice with
  | none => rfl
  | some v =>
    show (if v = 0 then getPrice p opt else v) = if v ≠ 0 then v else getPrice p opt
    by_cases h : v = 0
    · rw [if_pos h, if_neg (fun hv => hv h)]
    · rw [if_neg h, if_pos h]

theorem foldl_add_sum {α : Type} (f : α → ℚ) :
    ∀ (l : List α) (a : ℚ), l.foldl (fun s p => s + f p) a = a + (l.map f).sum := by
  intro l
  induction l with
  | nil => intro a; simp
  | cons x t ih =>
    intro a
    rw [List.foldl_cons, List.map_cons, List.sum_cons, ih]
    ring

/-- Claim C10: in the quotation's line totals, summed total, and CSV export,
an entry's unit price is its imported/override price only when that price is
non-zero; an override of 0 — including one the user enters through
`updatePartCustomPrice` — is treated as absent and replaced by the selected
catalog price field. -/
theorem c10_price_fallback (opt : PriceOption) :
    (∀ p : SelectionEntry, linePriceExpr p opt = specUnitPrice p opt) ∧
    (∀ sel : List SelectionEntry,
      statisticsTotalPrice sel opt =
        (sel.map (fun p => specUnitPrice p opt * ((jsIntOr p.quantity 1 : Int) : ℚ))).sum ∧
      exportCsvTotal sel opt =
        (sel.map (fun p => specUnitPrice p opt * ((jsIntOr p.quantity 1 : Int) : ℚ))).sum ∧
      exportCsvRows sel opt = sel.map (fun p =>
        (specUnitPrice p opt, specUnitPrice p opt * ((jsIntOr p.quantity 1 : Int) : ℚ)))) ∧
    (∀ (sel : List SelectionEntry) (partId : String),
      updatePartCustomPrice sel partId "0" = sel.map (fun p =>
        if p.part.id == partId then { p with importedPrice := some 0 } else p)) ∧
    (∀ p : SelectionEntry,
      specUnitPrice { p with importedPrice := some 0 } opt = getPrice p opt) := by
  refine ⟨fun p => linePriceExpr_eq_spec p opt, ?_, ?_, ?_⟩
  · intro sel
    refine ⟨?_, ?_, ?_⟩
    · unfold statisticsTotalPrice
      rw [foldl_add_sum]
      rw [List.map_congr_left (fun p _ => by rw [linePriceExpr_eq_spec])]
      simp
    · unfold exportCsvTotal
      rw [foldl_add_sum]
      rw [List.map_congr_left (fun p _ => by rw [linePriceExpr_eq_spec])]
      simp
    · unfold exportCsvRows
      exact List.map_congr_left (fun p _ => by rw [linePriceExpr_eq_spec])
  · intro sel partId
    unfold updatePartCustomPrice
    refine List.map_congr_left (fun p _ => ?_)
    have h1 : jsParseFloat "0" = some ((1 : ℚ) * ((0 : Nat) : ℚ) * qPow10 (0 : Int)) := rfl
    have h2 : ((1 : ℚ) * ((0 : Nat) : ℚ) * qPow10 (0 : Int)) = 0 := by
      simp
    have h3 : jsRatOr (jsParseFloat "0") 0 = 0 := by
      rw [h1, h2]
      exact jsRatOr_some_zero 0
    rw [h3]
  · intro p
    unfold specUnitPrice
    simp only []
    show (if (0 : ℚ) ≠ 0 then (0 : ℚ) else getPrice { p with importedPrice := some 0 } opt) =
      getPrice p opt
    rw [if_neg (fun hv => hv rfl)]
    cases opt <;> rfl

end PQS
